import Mathlib

/-!
Shallow embedding of the `kv` key-value store (`src/main.rs`) and proofs of
the specification claims about it.

The store keeps a `HashMap<String, String>` persisted to one backing file per
backend (`kv.db` for the JSON backend, `kv.bson` for the BSON backend).  Every
operation loads the whole mapping, mutates it in memory, and rewrites the file.

Modelling decisions:
* The in-memory `HashMap<String, String>` is modelled as an association list
  `KVMap := List (String × String)`; insertion order of a `HashMap` is
  irrelevant, so theorems about lookups are stated extensionally.
* The file system is a record `FS` with one optional content per backing file;
  `none` models an absent file.  Environmental I/O faults (permissions, disk
  full) are outside the state and not modelled; the `NotFound` distinction,
  which the source branches on, is modelled exactly.
* The external serialization libraries (`serde_json`, `bson`) are modelled by
  their contract: a well-formed encoding of a mapping decodes back to it, and
  corrupt bytes produce the corresponding deserialization error.  `FileContent`
  records which of the two cases a file's bytes are in.
* The external `regex` crate is modelled by a compile function
  `String → Option (String → Bool)`; the store operation `KV.get_keys` is
  parameterized by it.  The concrete instance `regexCompile` models literal
  patterns (no metacharacters): such a pattern compiles, and `is_match` has
  find semantics — it matches iff the pattern occurs anywhere in the key.
  A pattern containing a metacharacter (e.g. an unbalanced `(`) is treated as
  failing to compile, modelling `Regex::new` returning `Err`.
* `Regex::new(&pattern).unwrap()` aborts the process when compilation fails;
  this outcome is modelled by the dedicated constructor `KeysResult.panic`.
-/

/-- The in-memory mapping: `HashMap<String, String>` modelled as an
association list. -/
abbrev KVMap := List (String × String)

/-- `HashMap::get`: the value bound to `k`, if any. -/
def KVMap.get (m : KVMap) (k : String) : Option String :=
  match m with
  | [] => none
  | (a, b) :: rest => if a = k then some b else KVMap.get rest k

/-- `HashMap::remove` (the resulting map): all bindings for `k` are gone. -/
def KVMap.remove (m : KVMap) (k : String) : KVMap :=
  match m with
  | [] => []
  | (a, b) :: rest =>
    if a = k then KVMap.remove rest k else (a, b) :: KVMap.remove rest k

/-- `HashMap::insert`: bind `k` to `v`, replacing any previous binding. -/
def KVMap.insert (m : KVMap) (k v : String) : KVMap :=
  (k, v) :: KVMap.remove m k

/-- In-place update through `HashMap::get_mut`: replace the value bound to `k`
by `v'`, leaving every other binding untouched. -/
def KVMap.modifyValue (m : KVMap) (k : String) (v' : String) : KVMap :=
  match m with
  | [] => []
  | (a, b) :: rest =>
    if a = k then (a, v') :: KVMap.modifyValue rest k v'
    else (a, b) :: KVMap.modifyValue rest k v'

/-- `HashMap::keys`. -/
def KVMap.keys (m : KVMap) : List String :=
  match m with
  | [] => []
  | (a, _) :: rest => a :: KVMap.keys rest

/-- `HashMap::contains_key`. -/
def KVMap.contains_key (m : KVMap) (k : String) : Bool :=
  match m with
  | [] => false
  | (a, _) :: rest => a = k || KVMap.contains_key rest k

/-- The `std::io::ErrorKind` distinction the source branches on. -/
inductive IOErrorKind where
  | notFound
  | other
deriving DecidableEq, Repr

/-- The error enum `KVError` of `src/main.rs`.  Note that it has no
`InvalidPattern` variant. -/
inductive KVError where
  | IOError (kind : IOErrorKind)
  | DeserializationError
  | GenericError (kind : IOErrorKind)
  | KeyNotFound (key : String)
  | DeserializeError
  | SerializeError
deriving DecidableEq, Repr

/-- Bytes of a backing file: either the well-formed encoding of a mapping in
the file's format, or bytes that do not decode to a flat string-to-string
mapping. -/
inductive FileContent where
  | ofMap (m : KVMap)
  | corrupt
deriving DecidableEq, Repr

/-- The file-system state the program touches: the JSON backing file `kv.db`
and the BSON backing file `kv.bson`; `none` models an absent file. -/
structure FS where
  kv_db : Option FileContent
  kv_bson : Option FileContent
deriving DecidableEq, Repr

/-- Model of `serde_json::from_reader` on the bytes of `kv.db`: a well-formed
encoding decodes to its mapping, anything else fails with
`KVError::DeserializationError`. -/
def serde_json.from_reader (c : FileContent) : Except KVError KVMap :=
  match c with
  | .ofMap m => .ok m
  | .corrupt => .error .DeserializationError

/-- Model of `bson::Document::from_reader` followed by `bson::from_bson` on
the bytes of `kv.bson`: a well-formed encoding decodes to its mapping,
anything else fails with `KVError::DeserializeError`. -/
def bson.decode_file (c : FileContent) : Except KVError KVMap :=
  match c with
  | .ofMap m => .ok m
  | .corrupt => .error .DeserializeError

/-- `JsonBackendStorage::load_keys`: open `kv.db`; a `NotFound` error yields
the empty mapping, otherwise the file is decoded with `serde_json`. -/
def JsonBackendStorage.load_keys (fs : FS) : Except KVError KVMap :=
  match fs.kv_db with
  | none => .ok []
  | some c => serde_json.from_reader c

/-- `JsonBackendStorage::write_keys`: `serde_json::to_string(&map)?` (which
cannot fail on a string-to-string map) then `std::fs::write("kv.db", ...)`. -/
def JsonBackendStorage.write_keys (fs : FS) (m : KVMap) : Except KVError FS :=
  .ok { fs with kv_db := some (.ofMap m) }

/-- `JsonBackendStorage::clear`: `std::fs::write("kv.db", "{}")` — the literal
`"\x7b\x7d"` is exactly the JSON encoding of the empty mapping. -/
def JsonBackendStorage.clear (fs : FS) : Except KVError FS :=
  .ok { fs with kv_db := some (.ofMap []) }

/-- `BsonBackendStorage::load_keys`: open `kv.bson`; a `NotFound` error yields
the empty mapping, otherwise the file is decoded with `bson`. -/
def BsonBackendStorage.load_keys (fs : FS) : Except KVError KVMap :=
  match fs.kv_bson with
  | none => .ok []
  | some c => bson.decode_file c

/-- `BsonBackendStorage::write_keys`: `bson::to_document(&map)?` then write the
document to a freshly created `kv.bson`. -/
def BsonBackendStorage.write_keys (fs : FS) (m : KVMap) : Except KVError FS :=
  .ok { fs with kv_bson := some (.ofMap m) }

/-- `BsonBackendStorage::clear`: `std::fs::remove_file("kv.bson")?`.
`remove_file` on an absent file fails with a `NotFound` I/O error, which the
`?` operator converts into `KVError::IOError`. -/
def BsonBackendStorage.clear (fs : FS) : Except KVError FS :=
  match fs.kv_bson with
  | none => .error (.IOError .notFound)
  | some _ => .ok { fs with kv_bson := none }

/-- The `BackendStorage` trait object: the capability record a `KV` store is
constructed with. -/
structure Backend where
  load_keys : FS → Except KVError KVMap
  write_keys : FS → KVMap → Except KVError FS
  clear : FS → Except KVError FS

/-- `Box::new(JsonBackendStorage)`. -/
def jsonBackend : Backend :=
  { load_keys := JsonBackendStorage.load_keys
    write_keys := JsonBackendStorage.write_keys
    clear := JsonBackendStorage.clear }

/-- `Box::new(BsonBackendStorage)`. -/
def bsonBackend : Backend :=
  { load_keys := BsonBackendStorage.load_keys
    write_keys := BsonBackendStorage.write_keys
    clear := BsonBackendStorage.clear }

/-- `pat` occurs as a contiguous run somewhere in `s` (at the current position
or further right). -/
def occursInChars (pat s : List Char) : Bool :=
  pat.isPrefixOf s ||
    match s with
    | [] => false
    | _ :: rest => occursInChars pat rest

/-- Find semantics of the `regex` crate for a literal pattern: the pattern
matches a key iff it occurs anywhere in it (substring occurrence, no
anchoring). -/
def occursIn (pat s : String) : Bool :=
  occursInChars pat.toList s.toList

/-- The metacharacters of the `regex` crate's syntax. -/
def regexMeta : List Char :=
  ['\\', '^', '$', '.', '|', '?', '*', '+', '(', ')', '[', ']', '\x7b', '\x7d']

/-- Model of `Regex::new` followed by `Regex::is_match`, restricted to literal
patterns: a pattern free of metacharacters compiles, and the compiled regex
matches a key iff the pattern occurs anywhere in it (the crate's find
semantics).  A pattern containing a metacharacter — e.g. the unbalanced group
`"("`, on which the real `Regex::new` returns `Err` — is modelled as failing
to compile. -/
def regexCompile (pat : String) : Option (String → Bool) :=
  if pat.toList.all (fun c => !(regexMeta.contains c)) then
    some (fun s => occursInChars pat.toList s.toList)
  else
    none

/-- Outcome of `KV::get_keys`; `panic` models the process abort caused by
`.unwrap()` on a failed `Regex::new`. -/
inductive KeysResult where
  | panic
  | ok (keys : List String)
  | error (e : KVError)
deriving Repr

/-- `KV::get_keys`: load, compile the pattern (`.unwrap()` panics on failure),
keep the keys the regex matches. -/
def KV.get_keys (compile : String → Option (String → Bool)) (storage : Backend)
    (fs : FS) (pattern : String) : KeysResult :=
  match storage.load_keys fs with
  | .error e => .error e
  | .ok map =>
    match compile pattern with
    | none => .panic
    | some isMatch => .ok ((KVMap.keys map).filter isMatch)

/-- `KV::get`: load, look the key up. -/
def KV.get (storage : Backend) (fs : FS) (key : String) : Except KVError String :=
  match storage.load_keys fs with
  | .error e => .error e
  | .ok map =>
    match KVMap.get map key with
    | some value => .ok value
    | none => .error (.KeyNotFound key)

/-- `KV::exists`: load, test membership. -/
def KV.exists_ (storage : Backend) (fs : FS) (key : String) : Except KVError Bool :=
  match storage.load_keys fs with
  | .error e => .error e
  | .ok map => .ok (KVMap.contains_key map key)

/-- `KV::set`: load, insert/overwrite, persist.  Mutating operations return
the file-system state after the call next to the `Result`; when the operation
errors no write has happened and the state is returned unchanged. -/
def KV.set (storage : Backend) (fs : FS) (key value : String) :
    FS × Except KVError Unit :=
  match storage.load_keys fs with
  | .error e => (fs, .error e)
  | .ok map =>
    match storage.write_keys fs (KVMap.insert map key value) with
    | .ok fs' => (fs', .ok ())
    | .error e => (fs, .error e)

/-- `KV::delete`: load, remove; persist only when the key was present. -/
def KV.delete (storage : Backend) (fs : FS) (key : String) :
    FS × Except KVError Unit :=
  match storage.load_keys fs with
  | .error e => (fs, .error e)
  | .ok map =>
    match KVMap.get map key with
    | some _ =>
      match storage.write_keys fs (KVMap.remove map key) with
      | .ok fs' => (fs', .ok ())
      | .error e => (fs, .error e)
    | none => (fs, .error (.KeyNotFound key))

/-- `KV::rename`: load, `remove(key)`; if a value came out, insert it under
`new_key` and persist, otherwise fail with `KeyNotFound`. -/
def KV.rename (storage : Backend) (fs : FS) (key new_key : String) :
    FS × Except KVError Unit :=
  match storage.load_keys fs with
  | .error e => (fs, .error e)
  | .ok map =>
    match KVMap.get map key with
    | some v =>
      match storage.write_keys fs (KVMap.insert (KVMap.remove map key) new_key v) with
      | .ok fs' => (fs', .ok ())
      | .error e => (fs, .error e)
    | none => (fs, .error (.KeyNotFound key))

/-- `KV::append`: load, concatenate onto the existing value through
`get_mut`, persist; fail with `KeyNotFound` when the key is absent. -/
def KV.append (storage : Backend) (fs : FS) (key value : String) :
    FS × Except KVError Unit :=
  match storage.load_keys fs with
  | .error e => (fs, .error e)
  | .ok map =>
    match KVMap.get map key with
    | some v =>
      match storage.write_keys fs (KVMap.modifyValue map key (v ++ value)) with
      | .ok fs' => (fs', .ok ())
      | .error e => (fs, .error e)
    | none => (fs, .error (.KeyNotFound key))

/-- `KV::clear`: delegate to the backend's `clear`. -/
def KV.clear (storage : Backend) (fs : FS) : FS × Except KVError Unit :=
  match storage.clear fs with
  | .ok fs' => (fs', .ok ())
  | .error e => (fs, .error e)

/-! ### Lemmas about the association-list model of `HashMap` -/

theorem KVMap.get_remove_self (m : KVMap) (k : String) :
    KVMap.get (KVMap.remove m k) k = none := by
  induction m with
  | nil => rfl
  | cons p rest ih =>
    obtain ⟨a, b⟩ := p
    by_cases h : a = k
    · simpa [KVMap.remove, h] using ih
    · simp [KVMap.remove, KVMap.get, h, ih]

theorem KVMap.get_remove_ne (m : KVMap) (k k' : String) (h : k' ≠ k) :
    KVMap.get (KVMap.remove m k) k' = KVMap.get m k' := by
  have hkk : ¬ (k = k') := fun hh => h hh.symm
  induction m with
  | nil => rfl
  | cons p rest ih =>
    obtain ⟨a, b⟩ := p
    by_cases hak : a = k
    · simp [KVMap.remove, KVMap.get, hak, hkk, ih]
    · by_cases hak' : a = k'
      · simp [KVMap.remove, KVMap.get, hak, hak', h]
      · simp [KVMap.remove, KVMap.get, hak, hak', ih]

theorem KVMap.get_insert_self (m : KVMap) (k v : String) :
    KVMap.get (KVMap.insert m k v) k = some v := by
  simp [KVMap.insert, KVMap.get]

theorem KVMap.get_insert_ne (m : KVMap) (k v : String) (k' : String) (h : k' ≠ k) :
    KVMap.get (KVMap.insert m k v) k' = KVMap.get m k' := by
  have : k ≠ k' := fun hh => h hh.symm
  simp [KVMap.insert, KVMap.get, this, KVMap.get_remove_ne m k k' h]

theorem KVMap.get_modifyValue (m : KVMap) (k v' : String) (k' : String) :
    KVMap.get (KVMap.modifyValue m k v') k' =
      if k' = k then Option.map (fun _ => v') (KVMap.get m k')
      else KVMap.get m k' := by
  induction m with
  | nil => simp [KVMap.modifyValue, KVMap.get]
  | cons p rest ih =>
    obtain ⟨a, b⟩ := p
    by_cases hak : a = k
    · by_cases hk' : k' = k
      · have ha : a = k' := by rw [hak, hk']
        simp [KVMap.modifyValue, KVMap.get, hak, hk', ha]
      · have ha : ¬ (a = k') := fun hh => hk' (by rw [← hh, hak])
        have hkk : ¬ (k = k') := fun hh => hk' hh.symm
        simp [KVMap.modifyValue, KVMap.get, hak, hk', ha, hkk, ih]
    · by_cases ha : a = k'
      · have hk' : ¬ (k' = k) := fun hh => hak (by rw [ha, hh])
        simp [KVMap.modifyValue, KVMap.get, hak, ha, hk']
      · simp [KVMap.modifyValue, KVMap.get, hak, ha, ih]

theorem KVMap.keys_modifyValue (m : KVMap) (k v' : String) :
    KVMap.keys (KVMap.modifyValue m k v') = KVMap.keys m := by
  induction m with
  | nil => rfl
  | cons p rest ih =>
    obtain ⟨a, b⟩ := p
    by_cases hak : a = k <;> simp [KVMap.modifyValue, KVMap.keys, hak, ih]

theorem KVMap.mem_keys_remove (m : KVMap) (k : String) (k' : String)
    (h : k' ∈ KVMap.keys (KVMap.remove m k)) : k' ∈ KVMap.keys m := by
  induction m with
  | nil => exact h
  | cons p rest ih =>
    obtain ⟨a, b⟩ := p
    by_cases hak : a = k
    · simp [KVMap.remove, hak] at h
      simp [KVMap.keys]
      exact Or.inr (ih h)
    · simp [KVMap.remove, KVMap.keys, hak] at h ⊢
      rcases h with h | h
      · exact Or.inl h
      · exact Or.inr (ih h)

theorem KVMap.mem_keys_insert (m : KVMap) (k v : String) (k' : String)
    (h : k' ∈ KVMap.keys (KVMap.insert m k v)) :
    k' = k ∨ k' ∈ KVMap.keys m := by
  simp [KVMap.insert, KVMap.keys] at h
  rcases h with h | h
  · exact Or.inl h
  · exact Or.inr (KVMap.mem_keys_remove m k k' h)

/-! ### Round-trip of the modelled backends -/

/-- The two backends the source can construct (`FromStr` accepts exactly
`"Json"` and `"Bson"`). -/
def isSourceBackend (b : Backend) : Prop :=
  b = jsonBackend ∨ b = bsonBackend

theorem write_then_load (b : Backend) (hb : isSourceBackend b)
    (fs : FS) (m : KVMap) (fs' : FS) (hw : b.write_keys fs m = .ok fs') :
    b.load_keys fs' = .ok m := by
  rcases hb with hb | hb <;> subst hb
  · simp [jsonBackend, JsonBackendStorage.write_keys] at hw
    simp [jsonBackend, JsonBackendStorage.load_keys, ← hw, serde_json.from_reader]
  · simp [bsonBackend, BsonBackendStorage.write_keys] at hw
    simp [bsonBackend, BsonBackendStorage.load_keys, ← hw, bson.decode_file]

theorem write_always_ok (b : Backend) (hb : isSourceBackend b)
    (fs : FS) (m : KVMap) : ∃ fs', b.write_keys fs m = .ok fs' := by
  rcases hb with hb | hb <;> subst hb
  · exact ⟨_, rfl⟩
  · exact ⟨_, rfl⟩

/-! ### Behaviour of the store operations, by case -/

theorem KV.set_spec (b : Backend) (hb : isSourceBackend b) (fs : FS) (m : KVMap)
    (hl : b.load_keys fs = .ok m) (k v : String) :
    ∃ fs', KV.set b fs k v = (fs', .ok ()) ∧
      b.load_keys fs' = .ok (KVMap.insert m k v) := by
  rcases hb with hb | hb <;> subst hb
  · refine ⟨{ fs with kv_db := some (.ofMap (KVMap.insert m k v)) }, ?_, ?_⟩
    · have hl' : JsonBackendStorage.load_keys fs = Except.ok m := hl
      simp [KV.set, hl', jsonBackend, JsonBackendStorage.write_keys]
    · simp [jsonBackend, JsonBackendStorage.load_keys, serde_json.from_reader]
  · refine ⟨{ fs with kv_bson := some (.ofMap (KVMap.insert m k v)) }, ?_, ?_⟩
    · have hl' : BsonBackendStorage.load_keys fs = Except.ok m := hl
      simp [KV.set, hl', bsonBackend, BsonBackendStorage.write_keys]
    · simp [bsonBackend, BsonBackendStorage.load_keys, bson.decode_file]

theorem KV.delete_absent (b : Backend) (fs : FS) (m : KVMap)
    (hl : b.load_keys fs = .ok m) (k : String) (hk : KVMap.get m k = none) :
    KV.delete b fs k = (fs, .error (.KeyNotFound k)) := by
  simp [KV.delete, hl, hk]

theorem KV.delete_present (b : Backend) (hb : isSourceBackend b) (fs : FS)
    (m : KVMap) (hl : b.load_keys fs = .ok m) (k v : String)
    (hk : KVMap.get m k = some v) :
    ∃ fs', KV.delete b fs k = (fs', .ok ()) ∧
      b.load_keys fs' = .ok (KVMap.remove m k) := by
  rcases hb with hb | hb <;> subst hb
  · refine ⟨{ fs with kv_db := some (.ofMap (KVMap.remove m k)) }, ?_, ?_⟩
    · have hl' : JsonBackendStorage.load_keys fs = Except.ok m := hl
      simp [KV.delete, hl', hk, jsonBackend, JsonBackendStorage.write_keys]
    · simp [jsonBackend, JsonBackendStorage.load_keys, serde_json.from_reader]
  · refine ⟨{ fs with kv_bson := some (.ofMap (KVMap.remove m k)) }, ?_, ?_⟩
    · have hl' : BsonBackendStorage.load_keys fs = Except.ok m := hl
      simp [KV.delete, hl', hk, bsonBackend, BsonBackendStorage.write_keys]
    · simp [bsonBackend, BsonBackendStorage.load_keys, bson.decode_file]

theorem KV.rename_absent (b : Backend) (fs : FS) (m : KVMap)
    (hl : b.load_keys fs = .ok m) (k nk : String) (hk : KVMap.get m k = none) :
    KV.rename b fs k nk = (fs, .error (.KeyNotFound k)) := by
  simp [KV.rename, hl, hk]

theorem KV.rename_present (b : Backend) (hb : isSourceBackend b) (fs : FS)
    (m : KVMap) (hl : b.load_keys fs = .ok m) (k nk v : String)
    (hk : KVMap.get m k = some v) :
    ∃ fs', KV.rename b fs k nk = (fs', .ok ()) ∧
      b.load_keys fs' = .ok (KVMap.insert (KVMap.remove m k) nk v) := by
  rcases hb with hb | hb <;> subst hb
  · refine ⟨{ fs with kv_db := some (.ofMap (KVMap.insert (KVMap.remove m k) nk v)) }, ?_, ?_⟩
    · have hl' : JsonBackendStorage.load_keys fs = Except.ok m := hl
      simp [KV.rename, hl', hk, jsonBackend, JsonBackendStorage.write_keys]
    · simp [jsonBackend, JsonBackendStorage.load_keys, serde_json.from_reader]
  · refine ⟨{ fs with kv_bson := some (.ofMap (KVMap.insert (KVMap.remove m k) nk v)) }, ?_, ?_⟩
    · have hl' : BsonBackendStorage.load_keys fs = Except.ok m := hl
      simp [KV.rename, hl', hk, bsonBackend, BsonBackendStorage.write_keys]
    · simp [bsonBackend, BsonBackendStorage.load_keys, bson.decode_file]

theorem KV.append_absent (b : Backend) (fs : FS) (m : KVMap)
    (hl : b.load_keys fs = .ok m) (k s : String) (hk : KVMap.get m k = none) :
    KV.append b fs k s = (fs, .error (.KeyNotFound k)) := by
  simp [KV.append, hl, hk]

theorem KV.append_present (b : Backend) (hb : isSourceBackend b) (fs : FS)
    (m : KVMap) (hl : b.load_keys fs = .ok m) (k s v : String)
    (hk : KVMap.get m k = some v) :
    ∃ fs', KV.append b fs k s = (fs', .ok ()) ∧
      b.load_keys fs' = .ok (KVMap.modifyValue m k (v ++ s)) := by
  rcases hb with hb | hb <;> subst hb
  · refine ⟨{ fs with kv_db := some (.ofMap (KVMap.modifyValue m k (v ++ s))) }, ?_, ?_⟩
    · have hl' : JsonBackendStorage.load_keys fs = Except.ok m := hl
      simp [KV.append, hl', hk, jsonBackend, JsonBackendStorage.write_keys]
    · simp [jsonBackend, JsonBackendStorage.load_keys, serde_json.from_reader]
  · refine ⟨{ fs with kv_bson := some (.ofMap (KVMap.modifyValue m k (v ++ s))) }, ?_, ?_⟩
    · have hl' : BsonBackendStorage.load_keys fs = Except.ok m := hl
      simp [KV.append, hl', hk, bsonBackend, BsonBackendStorage.write_keys]
    · simp [bsonBackend, BsonBackendStorage.load_keys, bson.decode_file]

theorem KV.get_of_load (b : Backend) (fs : FS) (m : KVMap)
    (hl : b.load_keys fs = .ok m) (k : String) :
    KV.get b fs k =
      (match KVMap.get m k with
       | some v => .ok v
       | none => .error (.KeyNotFound k)) := by
  simp [KV.get, hl]

theorem KV.clear_json (fs : FS) :
    (KV.clear jsonBackend fs).2 = .ok () ∧
      Backend.load_keys jsonBackend (KV.clear jsonBackend fs).1 = .ok [] := by
  constructor
  · simp [KV.clear, jsonBackend, JsonBackendStorage.clear]
  · simp [KV.clear, jsonBackend, JsonBackendStorage.clear,
      JsonBackendStorage.load_keys, serde_json.from_reader]

theorem KV.clear_bson_present (fs : FS) (c : FileContent)
    (hc : fs.kv_bson = some c) :
    (KV.clear bsonBackend fs).2 = .ok () ∧
      Backend.load_keys bsonBackend (KV.clear bsonBackend fs).1 = .ok [] := by
  constructor
  · simp [KV.clear, bsonBackend, BsonBackendStorage.clear, hc]
  · simp [KV.clear, bsonBackend, BsonBackendStorage.clear, hc,
      BsonBackendStorage.load_keys]

theorem KV.clear_bson_missing (fs : FS) (hc : fs.kv_bson = none) :
    KV.clear bsonBackend fs = (fs, .error (.IOError .notFound)) := by
  simp [KV.clear, bsonBackend, BsonBackendStorage.clear, hc]

theorem reads_of_load_eq (b : Backend) (fs1 fs2 : FS)
    (h : b.load_keys fs1 = b.load_keys fs2) :
    (∀ k, KV.get b fs1 k = KV.get b fs2 k) ∧
    (∀ k, KV.exists_ b fs1 k = KV.exists_ b fs2 k) ∧
    (∀ c p, KV.get_keys c b fs1 p = KV.get_keys c b fs2 p) := by
  refine ⟨fun k => ?_, fun k => ?_, fun c p => ?_⟩ <;>
    simp [KV.get, KV.exists_, KV.get_keys, h]

/-! ### The claims -/

/-- C1: the claim says `get_keys` turns a non-compiling pattern into the typed
error `InvalidPattern`; the code instead calls `Regex::new(&pattern).unwrap()`,
which aborts the process (and `KVError` has no `InvalidPattern` variant at
all).  This theorem records the code's actual behaviour: whenever the load
succeeds and the pattern fails to compile, `KV.get_keys` panics. -/
theorem kv_C1 (compile : String → Option (String → Bool)) (b : Backend)
    (fs : FS) (m : KVMap) (hl : b.load_keys fs = .ok m)
    (pattern : String) (hp : compile pattern = none) :
    KV.get_keys compile b fs pattern = .panic := by
  simp [KV.get_keys, hl, hp]

theorem kv_C1_witness :
    KV.get_keys regexCompile jsonBackend ⟨none, none⟩ "(" = .panic :=
  kv_C1 regexCompile jsonBackend ⟨none, none⟩ [] rfl "(" rfl

/-- C2 counterexample: the claim says `clear` succeeds for every backend from
every prior state, including the state with no backing file; but the BSON
backend's `clear` calls `remove_file`, which fails with a `NotFound` I/O error
when `kv.bson` does not exist. -/
theorem kv_C2_cex :
    KV.clear bsonBackend ⟨none, none⟩ =
      (⟨none, none⟩, .error (.IOError .notFound)) := rfl

/-- C2 (amended): the JSON backend's `clear` succeeds from every state and a
load performed immediately afterwards returns the empty mapping; the BSON
backend's `clear` succeeds (with the same empty post-state) whenever the
backing file exists, and fails with a `NotFound` I/O error, leaving the state
unchanged, when it does not. -/
theorem kv_C2 :
    (∀ fs : FS, (KV.clear jsonBackend fs).2 = .ok () ∧
      Backend.load_keys jsonBackend (KV.clear jsonBackend fs).1 = .ok []) ∧
    (∀ (fs : FS) (c : FileContent), fs.kv_bson = some c →
      (KV.clear bsonBackend fs).2 = .ok () ∧
      Backend.load_keys bsonBackend (KV.clear bsonBackend fs).1 = .ok []) ∧
    (∀ fs : FS, fs.kv_bson = none →
      KV.clear bsonBackend fs = (fs, .error (.IOError .notFound))) :=
  ⟨KV.clear_json, KV.clear_bson_present, KV.clear_bson_missing⟩

theorem kv_C2_witness :
    (KV.clear jsonBackend ⟨none, none⟩).2 = .ok () ∧
    Backend.load_keys bsonBackend
      (KV.clear bsonBackend ⟨none, some (.ofMap [("a", "1")])⟩).1 = .ok [] ∧
    KV.clear bsonBackend ⟨some (.ofMap []), none⟩ =
      (⟨some (.ofMap []), none⟩, .error (.IOError .notFound)) :=
  ⟨(kv_C2.1 ⟨none, none⟩).1,
   (kv_C2.2.1 ⟨none, some (.ofMap [("a", "1")])⟩ (.ofMap [("a", "1")]) rfl).2,
   kv_C2.2.2 ⟨some (.ofMap []), none⟩ rfl⟩

/-- C3 counterexample: the claim says no operation admits the empty string as
a key; but `set` performs no validation, so `set("", "v")` succeeds and the
persisted mapping afterwards contains the empty key. -/
theorem kv_C3_cex :
    (KV.set jsonBackend ⟨none, none⟩ "" "v").2 = .ok () ∧
    Backend.load_keys jsonBackend (KV.set jsonBackend ⟨none, none⟩ "" "v").1 =
      .ok [("", "v")] ∧
    "" ∈ KVMap.keys [("", "v")] := by
  refine ⟨rfl, rfl, ?_⟩
  simp [KVMap.keys]

/-- C3 (amended): the operations store key arguments verbatim, with no
emptiness validation; non-emptiness of persisted keys is only preserved, not
enforced.  If every key of the loaded mapping is non-empty, then after a
successful `set` with a non-empty key, a successful `rename` to a non-empty
target key, or any `append`, every key of the persisted mapping is still
non-empty — but `set` (or `rename`) given the empty string admits it as a
key. -/
theorem kv_C3 (b : Backend) (hb : isSourceBackend b) (fs : FS) (m : KVMap)
    (hl : b.load_keys fs = .ok m) (hm : ∀ k ∈ KVMap.keys m, k ≠ "") :
    (∀ key value, key ≠ "" → ∀ fs' m',
      KV.set b fs key value = (fs', .ok ()) → b.load_keys fs' = .ok m' →
      ∀ k ∈ KVMap.keys m', k ≠ "") ∧
    (∀ key nk, nk ≠ "" → ∀ fs' m',
      KV.rename b fs key nk = (fs', .ok ()) → b.load_keys fs' = .ok m' →
      ∀ k ∈ KVMap.keys m', k ≠ "") ∧
    (∀ key s fs' m',
      KV.append b fs key s = (fs', .ok ()) → b.load_keys fs' = .ok m' →
      ∀ k ∈ KVMap.keys m', k ≠ "") := by
  refine ⟨?_, ?_, ?_⟩
  · intro key value hkey fs' m' hop hload k hk
    obtain ⟨fs'', hop', hload'⟩ := KV.set_spec b hb fs m hl key value
    have hfs : fs' = fs'' := congrArg Prod.fst (hop.symm.trans hop')
    rw [hfs, hload'] at hload
    have hm' : m' = KVMap.insert m key value := (Except.ok.inj hload).symm
    subst hm'
    rcases KVMap.mem_keys_insert m key value k hk with h | h
    · exact h ▸ hkey
    · exact hm k h
  · intro key nk hnk fs' m' hop hload k hk
    cases hget : KVMap.get m key with
    | none =>
      rw [KV.rename_absent b fs m hl key nk hget] at hop
      exact absurd (congrArg Prod.snd hop) (by simp)
    | some v =>
      obtain ⟨fs'', hop', hload'⟩ := KV.rename_present b hb fs m hl key nk v hget
      have hfs : fs' = fs'' := congrArg Prod.fst (hop.symm.trans hop')
      rw [hfs, hload'] at hload
      have hm' : m' = KVMap.insert (KVMap.remove m key) nk v :=
        (Except.ok.inj hload).symm
      subst hm'
      rcases KVMap.mem_keys_insert (KVMap.remove m key) nk v k hk with h | h
      · exact h ▸ hnk
      · exact hm k (KVMap.mem_keys_remove m key k h)
  · intro key s fs' m' hop hload k hk
    cases hget : KVMap.get m key with
    | none =>
      rw [KV.append_absent b fs m hl key s hget] at hop
      exact absurd (congrArg Prod.snd hop) (by simp)
    | some v =>
      obtain ⟨fs'', hop', hload'⟩ := KV.append_present b hb fs m hl key s v hget
      have hfs : fs' = fs'' := congrArg Prod.fst (hop.symm.trans hop')
      rw [hfs, hload'] at hload
      have hm' : m' = KVMap.modifyValue m key (v ++ s) :=
        (Except.ok.inj hload).symm
      subst hm'
      rw [KVMap.keys_modifyValue] at hk
      exact hm k hk

theorem kv_C3_witness :
    (KV.set jsonBackend ⟨some (.ofMap [("a", "1")]), none⟩ "b" "x").2 = .ok () ∧
    ("b" : String) ≠ "" := by
  refine ⟨rfl, ?_⟩
  exact (kv_C3 jsonBackend (Or.inl rfl) ⟨some (.ofMap [("a", "1")]), none⟩
      [("a", "1")] rfl (by decide)).1 "b" "x" (by decide)
      ⟨some (.ofMap [("b", "x"), ("a", "1")]), none⟩ [("b", "x"), ("a", "1")]
      rfl rfl "b" (by decide)

/-- C4: for both backends, `load` on a missing backing file returns the empty
mapping and never an error, and every read operation (`get`, `exists`,
`get_keys`) on a missing-file state behaves identically to the same operation
on a freshly cleared store (for the BSON backend, under the stated success of
the preceding `clear`, which removes the file). -/
theorem kv_C4 :
    (∀ fs : FS, fs.kv_db = none → Backend.load_keys jsonBackend fs = .ok []) ∧
    (∀ fs : FS, fs.kv_bson = none → Backend.load_keys bsonBackend fs = .ok []) ∧
    (∀ fs fs0 : FS, fs.kv_db = none →
      (∀ k, KV.get jsonBackend fs k = KV.get jsonBackend (KV.clear jsonBackend fs0).1 k) ∧
      (∀ k, KV.exists_ jsonBackend fs k = KV.exists_ jsonBackend (KV.clear jsonBackend fs0).1 k) ∧
      (∀ c p, KV.get_keys c jsonBackend fs p = KV.get_keys c jsonBackend (KV.clear jsonBackend fs0).1 p)) ∧
    (∀ fs fs0 : FS, fs.kv_bson = none → (KV.clear bsonBackend fs0).2 = .ok () →
      (∀ k, KV.get bsonBackend fs k = KV.get bsonBackend (KV.clear bsonBackend fs0).1 k) ∧
      (∀ k, KV.exists_ bsonBackend fs k = KV.exists_ bsonBackend (KV.clear bsonBackend fs0).1 k) ∧
      (∀ c p, KV.get_keys c bsonBackend fs p = KV.get_keys c bsonBackend (KV.clear bsonBackend fs0).1 p)) := by
  have hjson : ∀ fs : FS, fs.kv_db = none → Backend.load_keys jsonBackend fs = .ok [] := by
    intro fs h
    simp [jsonBackend, JsonBackendStorage.load_keys, h]
  have hbson : ∀ fs : FS, fs.kv_bson = none → Backend.load_keys bsonBackend fs = .ok [] := by
    intro fs h
    simp [bsonBackend, BsonBackendStorage.load_keys, h]
  refine ⟨hjson, hbson, ?_, ?_⟩
  · intro fs fs0 h
    exact reads_of_load_eq jsonBackend fs (KV.clear jsonBackend fs0).1
      ((hjson fs h).trans (KV.clear_json fs0).2.symm)
  · intro fs fs0 h hok
    cases hc : fs0.kv_bson with
    | none =>
      rw [KV.clear_bson_missing fs0 hc] at hok
      exact absurd hok (by simp)
    | some c =>
      exact reads_of_load_eq bsonBackend fs (KV.clear bsonBackend fs0).1
        ((hbson fs h).trans (KV.clear_bson_present fs0 c hc).2.symm)

theorem kv_C4_witness :
    Backend.load_keys jsonBackend ⟨none, none⟩ = .ok [] ∧
    Backend.load_keys bsonBackend ⟨none, none⟩ = .ok [] ∧
    KV.get bsonBackend ⟨none, none⟩ "a" =
      KV.get bsonBackend (KV.clear bsonBackend ⟨none, some (.ofMap [("a", "1")])⟩).1 "a" :=
  ⟨kv_C4.1 ⟨none, none⟩ rfl,
   kv_C4.2.1 ⟨none, none⟩ rfl,
   (kv_C4.2.2.2 ⟨none, none⟩ ⟨none, some (.ofMap [("a", "1")])⟩ rfl rfl).1 "a"⟩

/-- C5: when the loaded mapping binds `k` to `v`, `rename k nk` succeeds and
the persisted mapping binds `nk` to `v` and (for `nk ≠ k`) no longer contains
`k`; a previous binding of `nk` is silently overwritten, never an error.  When
`k` is absent, `rename` fails with `KeyNotFound k` and leaves the state
unchanged. -/
theorem kv_C5 (b : Backend) (hb : isSourceBackend b) (fs : FS) (m : KVMap)
    (hl : b.load_keys fs = .ok m) (k nk : String) :
    (∀ v, KVMap.get m k = some v →
      (KV.rename b fs k nk).2 = .ok () ∧
      ∀ m', b.load_keys (KV.rename b fs k nk).1 = .ok m' →
        KVMap.get m' nk = some v ∧ (k ≠ nk → KVMap.get m' k = none)) ∧
    (KVMap.get m k = none →
      KV.rename b fs k nk = (fs, .error (.KeyNotFound k))) := by
  constructor
  · intro v hv
    obtain ⟨fs', hren, hload⟩ := KV.rename_present b hb fs m hl k nk v hv
    rw [hren]
    refine ⟨rfl, ?_⟩
    intro m' hm'
    have hmm : m' = KVMap.insert (KVMap.remove m k) nk v :=
      Except.ok.inj (hm'.symm.trans hload)
    subst hmm
    refine ⟨KVMap.get_insert_self _ nk v, ?_⟩
    intro hne
    rw [KVMap.get_insert_ne _ nk v k hne]
    exact KVMap.get_remove_self m k
  · exact KV.rename_absent b fs m hl k nk

theorem kv_C5_witness :
    (KV.rename jsonBackend ⟨some (.ofMap [("a", "1"), ("b", "2")]), none⟩ "a" "b").2 = .ok () ∧
    KVMap.get [("b", "1")] "b" = some "1" ∧
    KVMap.get [("b", "1")] "a" = none := by
  have h := (kv_C5 jsonBackend (Or.inl rfl)
      ⟨some (.ofMap [("a", "1"), ("b", "2")]), none⟩
      [("a", "1"), ("b", "2")] rfl "a" "b").1 "1" rfl
  have h2 := h.2 [("b", "1")] rfl
  exact ⟨h.1, h2.1, h2.2 (by decide)⟩

/-- C6: when the loaded mapping binds `k` to `v`, `append k s` succeeds and
the persisted mapping binds `k` to `v ++ s`; when `k` is absent, `append`
fails with `KeyNotFound k`, leaving the state unchanged — it never creates the
key. -/
theorem kv_C6 (b : Backend) (hb : isSourceBackend b) (fs : FS) (m : KVMap)
    (hl : b.load_keys fs = .ok m) (k s : String) :
    (∀ v, KVMap.get m k = some v →
      (KV.append b fs k s).2 = .ok () ∧
      ∀ m', b.load_keys (KV.append b fs k s).1 = .ok m' →
        KVMap.get m' k = some (v ++ s)) ∧
    (KVMap.get m k = none →
      KV.append b fs k s = (fs, .error (.KeyNotFound k))) := by
  constructor
  · intro v hv
    obtain ⟨fs', happ, hload⟩ := KV.append_present b hb fs m hl k s v hv
    rw [happ]
    refine ⟨rfl, ?_⟩
    intro m' hm'
    have hmm : m' = KVMap.modifyValue m k (v ++ s) :=
      Except.ok.inj (hm'.symm.trans hload)
    subst hmm
    rw [KVMap.get_modifyValue m k (v ++ s) k, if_pos rfl, hv]
    rfl
  · exact KV.append_absent b fs m hl k s

theorem kv_C6_witness :
    (KV.append jsonBackend ⟨some (.ofMap [("a", "x")]), none⟩ "a" "y").2 = .ok () ∧
    KVMap.get [("a", "xy")] "a" = some ("x" ++ "y") ∧
    KV.append jsonBackend ⟨some (.ofMap [("a", "x")]), none⟩ "missing" "y" =
      (⟨some (.ofMap [("a", "x")]), none⟩, .error (.KeyNotFound "missing")) := by
  have h := kv_C6 jsonBackend (Or.inl rfl) ⟨some (.ofMap [("a", "x")]), none⟩
      [("a", "x")] rfl "a" "y"
  have h1 := h.1 "x" rfl
  have h2 := (kv_C6 jsonBackend (Or.inl rfl) ⟨some (.ofMap [("a", "x")]), none⟩
      [("a", "x")] rfl "missing" "y").2 rfl
  exact ⟨h1.1, h1.2 [("a", "xy")] rfl, h2⟩

/-- C7: when the loaded mapping does not contain `k`, `delete k` fails with
`KeyNotFound k` and returns the state unchanged — no persist is attempted;
when it does contain `k`, `delete` succeeds and the persisted mapping is the
previous one with `k` removed (so `k` no longer resolves). -/
theorem kv_C7 (b : Backend) (hb : isSourceBackend b) (fs : FS) (m : KVMap)
    (hl : b.load_keys fs = .ok m) (k : String) :
    (KVMap.get m k = none →
      KV.delete b fs k = (fs, .error (.KeyNotFound k))) ∧
    (∀ v, KVMap.get m k = some v →
      (KV.delete b fs k).2 = .ok () ∧
      b.load_keys (KV.delete b fs k).1 = .ok (KVMap.remove m k) ∧
      KVMap.get (KVMap.remove m k) k = none) := by
  constructor
  · exact KV.delete_absent b fs m hl k
  · intro v hv
    obtain ⟨fs', hdel, hload⟩ := KV.delete_present b hb fs m hl k v hv
    rw [hdel]
    exact ⟨rfl, hload, KVMap.get_remove_self m k⟩

theorem kv_C7_witness :
    KV.delete jsonBackend ⟨some (.ofMap [("a", "1")]), none⟩ "b" =
      (⟨some (.ofMap [("a", "1")]), none⟩, .error (.KeyNotFound "b")) ∧
    (KV.delete jsonBackend ⟨some (.ofMap [("a", "1")]), none⟩ "a").2 = .ok () ∧
    KVMap.get (KVMap.remove [("a", "1")] "a") "a" = none := by
  have h := kv_C7 jsonBackend (Or.inl rfl) ⟨some (.ofMap [("a", "1")]), none⟩
      [("a", "1")] rfl "b"
  have h2 := (kv_C7 jsonBackend (Or.inl rfl) ⟨some (.ofMap [("a", "1")]), none⟩
      [("a", "1")] rfl "a").2 "1" rfl
  exact ⟨h.1 rfl, h2.1, h2.2.2⟩

/-- C8: for every non-empty key `k` and every value `v` (the empty string
included), `set k v` succeeds and a `get k` performed on the resulting state
returns `v`. -/
theorem kv_C8 (b : Backend) (hb : isSourceBackend b) (fs : FS) (m : KVMap)
    (hl : b.load_keys fs = .ok m) (k v : String) (_hk : k ≠ "") :
    (KV.set b fs k v).2 = .ok () ∧
    KV.get b (KV.set b fs k v).1 k = .ok v := by
  obtain ⟨fs', hset, hload⟩ := KV.set_spec b hb fs m hl k v
  rw [hset]
  exact ⟨rfl, by simp [KV.get, hload, KVMap.get_insert_self]⟩

theorem kv_C8_witness :
    (KV.set jsonBackend ⟨none, none⟩ "a" "").2 = .ok () ∧
    KV.get jsonBackend (KV.set jsonBackend ⟨none, none⟩ "a" "").1 "a" = .ok "" :=
  kv_C8 jsonBackend (Or.inl rfl) ⟨none, none⟩ [] rfl "a" "" (by decide)

/-- C9: for every pattern accepted by the (literal-pattern) model of the
regex engine, `get_keys` returns exactly the keys of the loaded mapping in
which the pattern occurs somewhere — find/substring semantics, not anchored
full-match — as characterised by the order-independent membership
equivalence. -/
theorem kv_C9 (pattern : String) (matcher : String → Bool)
    (hc : regexCompile pattern = some matcher)
    (b : Backend) (fs : FS) (m : KVMap) (hl : b.load_keys fs = .ok m) :
    KV.get_keys regexCompile b fs pattern =
      .ok ((KVMap.keys m).filter (fun k => occursIn pattern k)) ∧
    ∀ k, (k ∈ (KVMap.keys m).filter (fun k => occursIn pattern k)) ↔
      (k ∈ KVMap.keys m ∧ occursIn pattern k = true) := by
  have hmatch : matcher = fun s => occursInChars pattern.toList s.toList := by
    by_cases h : pattern.toList.all (fun c => !(regexMeta.contains c))
    · rw [regexCompile, if_pos h] at hc
      simpa using hc.symm
    · rw [regexCompile, if_neg h] at hc
      exact absurd hc (by simp)
  constructor
  · simp [KV.get_keys, hl, hc, hmatch, occursIn]
  · intro k
    simp [List.mem_filter]

theorem kv_C9_witness :
    KV.get_keys regexCompile jsonBackend
        ⟨some (.ofMap [("Abc", "1"), ("Abi", "2"), ("Xyz", "3")]), none⟩ "Ab" =
      .ok ((KVMap.keys [("Abc", "1"), ("Abi", "2"), ("Xyz", "3")]).filter
        (fun k => occursIn "Ab" k)) ∧
    (KVMap.keys [("Abc", "1"), ("Abi", "2"), ("Xyz", "3")]).filter
        (fun k => occursIn "Ab" k) = ["Abc", "Abi"] := by
  refine ⟨(kv_C9 "Ab" (fun s => occursInChars "Ab".toList s.toList) rfl
      jsonBackend ⟨some (.ofMap [("Abc", "1"), ("Abi", "2"), ("Xyz", "3")]), none⟩
      [("Abc", "1"), ("Abi", "2"), ("Xyz", "3")] rfl).1, ?_⟩
  decide

/-- C10: renaming a key to itself succeeds and leaves the mapping
extensionally unchanged — the value survives because the source key is
removed before the (identical) target key is inserted. -/
theorem kv_C10 (b : Backend) (hb : isSourceBackend b) (fs : FS) (m : KVMap)
    (hl : b.load_keys fs = .ok m) (k v : String)
    (hk : KVMap.get m k = some v) :
    (KV.rename b fs k k).2 = .ok () ∧
    ∀ m', b.load_keys (KV.rename b fs k k).1 = .ok m' →
      ∀ k', KVMap.get m' k' = KVMap.get m k' := by
  obtain ⟨fs', hren, hload⟩ := KV.rename_present b hb fs m hl k k v hk
  rw [hren]
  refine ⟨rfl, ?_⟩
  intro m' hm' k'
  have hmm : m' = KVMap.insert (KVMap.remove m k) k v :=
    Except.ok.inj (hm'.symm.trans hload)
  subst hmm
  by_cases hkk : k' = k
  · subst hkk
    rw [KVMap.get_insert_self, hk]
  · rw [KVMap.get_insert_ne _ k v k' hkk, KVMap.get_remove_ne m k k' hkk]

theorem kv_C10_witness :
    (KV.rename jsonBackend ⟨some (.ofMap [("b", "2"), ("a", "1")]), none⟩ "a" "a").2 = .ok () ∧
    KVMap.get [("a", "1"), ("b", "2")] "a" = KVMap.get [("b", "2"), ("a", "1")] "a" ∧
    KVMap.get [("a", "1"), ("b", "2")] "b" = KVMap.get [("b", "2"), ("a", "1")] "b" := by
  have h := kv_C10 jsonBackend (Or.inl rfl) ⟨some (.ofMap [("b", "2"), ("a", "1")]), none⟩
      [("b", "2"), ("a", "1")] rfl "a" "1" rfl
  exact ⟨h.1, h.2 [("a", "1"), ("b", "2")] rfl "a", h.2 [("a", "1"), ("b", "2")] rfl "b"⟩
